import Mathlib

/-!
Shallow embedding of the media-asset server (`src/server.py`,
`src/video/storage.py`) of the `ai-agents-no-code-tools` repository.

Modelling conventions:
* Python strings become Lean `String`s; Python substring / prefix tests become
  character-list operations on `String.data` (Python's `str` semantics).
* Filesystem paths below the storage root become lists of path components
  relative to that root; the storage root itself is a list of components of its
  absolute path.  `os.path.abspath` on absolute inputs becomes component
  normalisation (`normComps`) followed by rendering (`renderAbs`).
* The filesystem becomes an explicit `Store` state: an association list from
  (normalised) component paths to file contents (bytes as `List Nat`), a list of
  directories, and the JSON metadata side-files as an association list keyed by
  media id (the source writes each metadata dict as `metadata/<id>.json` with
  `json.dump` and reads it back with `json.load`; that round-trip is the
  identity on the dicts the source stores, so a keyed map is a faithful model).
* Fresh UUID4 values (`uuid.uuid4()`) are passed in as explicit parameters.
* Python exceptions become `Except Err`; `ValueError` and `FileNotFoundError`
  are the two kinds the modelled code distinguishes.  OS-level write errors
  (disk-full, writing to a directory) are not modelled: `open(path, "wb")`
  always succeeds.
-/

namespace NoCodeTools

/-- Python substring test `needle in hay`, on the character lists of the two
strings (contiguous occurrence). -/
def isInfixList (needle : List Char) : List Char → Bool
  | [] => needle.isEmpty
  | x :: t => needle.isPrefixOf (x :: t) || isInfixList needle t

/-- Python `needle in hay` for strings. -/
def containsSub (needle hay : String) : Bool :=
  isInfixList needle.data hay.data

/-- Python `s.startswith p`. -/
def strStartsWith (s p : String) : Bool := p.data.isPrefixOf s.data

/-- Python `s.endswith p`. -/
def strEndsWith (s p : String) : Bool := p.data.isSuffixOf s.data

/-- Basename of a path given as a component list (last component; "" for the
empty path). -/
def lastComp (p : List String) : String := (p.getLast?).getD ""

/-- Python `s.split(c, 1)` restricted to the case where `c` occurs in `s`:
the text before the first `c` and the text after it (`none` when `c` is
absent, which the callers test with `c in s` first). -/
def splitOnFirstChar (c : Char) : List Char → Option (List Char × List Char)
  | [] => none
  | x :: xs =>
    if x = c then some ([], xs)
    else
      match splitOnFirstChar c xs with
      | some (a, b) => some (x :: a, b)
      | none => none

/-- Helper for `splitAllChar`: accumulates the current component (reversed). -/
def splitAllCharAux (c : Char) (acc : List Char) : List Char → List String
  | [] => [String.mk acc.reverse]
  | x :: xs =>
    if x = c then String.mk acc.reverse :: splitAllCharAux c [] xs
    else splitAllCharAux c (x :: acc) xs

/-- Python `s.split(c)` for a one-character separator (e.g. `folder_path.split("/")`).
Like Python, `"".split(c) = [""]` and a trailing separator yields a final `""`. -/
def splitAllChar (c : Char) (s : String) : List String :=
  splitAllCharAux c [] s.data

/-- Components of a folder-path string: `folder_path.split("/")` as the source
uses it both for segment-wise resolution and (via `os.path.join`) to address
the filesystem below `storage/folders`. -/
def splitPath (s : String) : List String := splitAllChar '/' s

/-- Python `sep.join(parts)`. -/
def joinWith (sep : String) : List String → String
  | [] => ""
  | [x] => x
  | x :: y :: xs => x ++ sep ++ joinWith sep (y :: xs)

/-! ### Path normalisation (model of `os.path.abspath` on absolute paths)

All paths the source passes to `os.path.abspath` are absolute (the storage
root is absolute, and joined suffixes keep it absolute), so `abspath` is
`normpath`: empty and `"."` components vanish and `".."` removes the previous
component (at the root, `".."` stays at the root, as POSIX `normpath` does for
absolute paths). -/

/-- One step of POSIX normalisation of an absolute path's component list. -/
def normStep (acc : List String) (c : String) : List String :=
  if c = "" ∨ c = "." then acc
  else if c = ".." then acc.dropLast
  else acc ++ [c]

/-- Normalised component list of an absolute path. -/
def normComps (cs : List String) : List String := cs.foldl normStep []

/-- Renders components as the tail of an absolute path string (`"/a/b"`). -/
def renderComps : List String → String
  | [] => ""
  | c :: cs => "/" ++ c ++ renderComps cs

/-- The absolute path string `os.path.abspath` returns for the given
(normalised) components; the empty list is the filesystem root `"/"`. -/
def renderAbs (cs : List String) : String :=
  if cs.isEmpty then "/" else renderComps cs

/-! ### Identifier validation (`Storage._validate_media_id`, storage.py 31-64) -/

/-- The four known media categories (`MediaType` in storage.py). -/
def validMediaTypes : List String := ["image", "video", "audio", "tmp"]

/-- Embedding of `Storage._validate_media_id` (storage.py lines 31-64).
Returns `(media_type, filename)` on success and `none` where the source raises
`ValueError` (the separate error messages of the source are not distinguished:
every caller treats them alike). -/
def validate_media_id (media_id : String) : Option (String × String) :=
  if media_id = "" then none
  else
    match splitOnFirstChar '_' media_id.data with
    | none => none
    | some (t, f) =>
      if ¬ validMediaTypes.contains (String.mk t) then none
      else if containsSub ".." (String.mk f) || containsSub "/" (String.mk f) ||
          containsSub "\\" (String.mk f) then none
      else if String.mk f = "" || (String.mk f).length > 255 then none
      else some (String.mk t, String.mk f)

/-! ### The legacy resolution branch (`Storage._get_safe_file_path`, lines 82-96)

`legacy_try` is the body of the `try:` block: validate, join
`storage/media_type/filename`, re-derive the absolute path and reject when it
is not prefixed by the storage root's absolute path.  `resolve_legacy` adds the
bare `except:` that converts every failure into `FileNotFoundError`.  The
returned path is relative to the storage root (the source returns the joined
absolute string; all later uses are below the root). -/

/-- Python exception kinds the modelled code distinguishes. -/
inductive Err where
  | valueError (msg : String)
  | fileNotFound (msg : String)
deriving DecidableEq, Repr

/-- Body of the `try:` block of `Storage._get_safe_file_path` (lines 83-94):
the explicit `ValueError "Path traversal attempt detected"` branch is the
defense-in-depth re-check. -/
def legacy_try (root : List String) (media_id : String) : Except Err (List String) :=
  match validate_media_id media_id with
  | none => .error (.valueError "invalid media id")
  | some (media_type, filename) =>
    let rel := [media_type, filename]
    if strStartsWith (renderAbs (normComps (root ++ rel))) (renderAbs (normComps root)) then
      .ok rel
    else
      .error (.valueError "Path traversal attempt detected")

/-- `Storage._get_safe_file_path`'s legacy fallback with its bare `except:`
(storage.py line 95-96): any failure becomes `FileNotFoundError`. -/
def resolve_legacy (root : List String) (media_id : String) : Except Err (List String) :=
  match legacy_try root media_id with
  | .ok p => .ok p
  | .error _ => .error (.fileNotFound ("Media file " ++ media_id ++ " not found."))

/-! ### Filesystem state -/

deriving instance DecidableEq for Except

/-- The metadata dict `_save_file_metadata` persists for a media id
(storage.py lines 487-495 name its five fields). -/
structure Metadata where
  custom_name : String := ""
  original_filename : String := ""
  media_type : String := ""
  folder_path : String := ""
  file_extension : String := ""
deriving DecidableEq, Repr

/-- Association-list lookup (used for the path-keyed file table and the
id-keyed metadata side-channel). -/
def lookupA {α β : Type} [DecidableEq α] (key : α) : List (α × β) → Option β
  | [] => none
  | kv :: rest => if kv.1 = key then some kv.2 else lookupA key rest

/-- Drops the entry stored under `key`, if any (model of overwriting or
removing one file or side-file). -/
def eraseKey {α β : Type} [DecidableEq α] (key : α) (l : List (α × β)) : List (α × β) :=
  l.filter (fun kv => decide (kv.1 ≠ key))

/-- Filesystem below the storage root plus the metadata side-channel.
`files` maps normalised component paths (relative to the root) to contents,
in creation order (the model of `os.walk` enumeration order); `dirs` lists
the directories (normalised, relative); `root` is the component list of the
storage root's absolute path; `meta` models the `metadata/<id>.json`
side-files. -/
structure Store where
  root : List String
  files : List (List String × List Nat)
  dirs : List (List String)
  meta : List (String × Metadata)
deriving DecidableEq, Repr

def lookupFile (st : Store) (p : List String) : Option (List Nat) :=
  lookupA (normComps p) st.files

/-- `os.path.exists` restricted to files. -/
def fileExists (st : Store) (p : List String) : Bool :=
  (lookupFile st p).isSome

/-- `os.path.exists` (true for files and directories; the OS resolves `.`,
`..` and duplicate slashes while looking the path up, which `normComps`
models). -/
def pathExists (st : Store) (p : List String) : Bool :=
  fileExists st p || st.dirs.contains (normComps p)

/-- `open(path, "wb")` followed by writing `data`: creates or truncates the
file at the (normalised) path.  OS-level write failures are not modelled. -/
def writeFile (st : Store) (p : List String) (data : List Nat) : Store :=
  { st with files := eraseKey (normComps p) st.files ++ [(normComps p, data)] }

/-- `os.makedirs(path, exist_ok=True)`: creates the directory and every
ancestor, keeping existing entries. -/
def addDir (st : Store) (p : List String) : Store :=
  { st with dirs := st.dirs ++
      (((List.range (normComps p).length).map (fun i => (normComps p).take (i + 1))).filter
        (fun q => !(st.dirs.contains q))) }

/-- `Storage._save_file_metadata` (storage.py 897-913): (re)writes
`metadata/<id>.json`. -/
def save_file_metadata (st : Store) (media_id : String) (m : Metadata) : Store :=
  { st with meta := eraseKey media_id st.meta ++ [(media_id, m)] }

/-- `Storage._delete_file_metadata` (storage.py 939-953): removes the
side-file if present, silently. -/
def delete_file_metadata (st : Store) (media_id : String) : Store :=
  { st with meta := eraseKey media_id st.meta }

/-- `Storage._get_file_metadata` (storage.py 915-937): the side-file's dict,
or the empty dict when absent or unreadable. -/
def get_file_metadata (st : Store) (media_id : String) : Metadata :=
  (lookupA media_id st.meta).getD {}

/-- The store `Storage.__init__` (storage.py 16-29) produces on an empty
filesystem: the four category buckets, the `folders` root and the two default
folders created by `_create_default_folders` (storage.py 667-685). -/
def initStore (root : List String) : Store :=
  { root := root
    files := []
    dirs := [["image"], ["video"], ["audio"], ["tmp"], ["folders"],
             ["folders", "temp"], ["folders", "Background Music"]]
    meta := [] }

/-! ### UUID-scheme resolution and the shared path API -/

/-- The `os.walk` loop of `_find_file_by_uuid` over one base directory
(storage.py 131-141): the first stored file below `base` whose basename starts
with `media_id` (walk order modelled as `Store.files` order). -/
def find_in_tree (st : Store) (base : List String) (media_id : String) :
    Option (List String) :=
  (st.files.find? (fun kv => base.isPrefixOf kv.1 &&
    strStartsWith (lastComp kv.1) media_id)).map (·.1)

/-- The `for base_path in search_paths` loop of `_find_file_by_uuid`
(storage.py 122-141): absent bases are skipped. -/
def searchBasesGo (st : Store) (media_id : String) : List (List String) → Option (List String)
  | [] => none
  | b :: bs =>
    if pathExists st b then
      match find_in_tree st b media_id with
      | some p => some p
      | none => searchBasesGo st media_id bs
    else searchBasesGo st media_id bs

/-- `Storage._find_file_by_uuid` (storage.py 98-143): metadata-directed lookup
first, then the walk over the five search roots; `none` is the source's `""`. -/
def find_file_by_uuid (st : Store) (media_id : String) : Option (List String) :=
  let metadata := get_file_metadata st media_id
  let filename := if metadata.file_extension ≠ "" then media_id ++ metadata.file_extension
    else media_id
  let fromMeta : Option (List String) :=
    if metadata.folder_path ≠ "" then
      let p := ["folders"] ++ splitPath metadata.folder_path ++ [filename]
      if pathExists st p then some (normComps p) else none
    else none
  match fromMeta with
  | some p => some p
  | none => searchBasesGo st media_id [["folders"], ["image"], ["video"], ["audio"], ["tmp"]]

/-- `Storage._get_safe_file_path` (storage.py 66-96): the UUID scheme first,
then the legacy scheme with its bare `except:`. -/
def get_safe_file_path (st : Store) (media_id : String) : Except Err (List String) :=
  match find_file_by_uuid st media_id with
  | some p => if pathExists st p then .ok p else resolve_legacy st.root media_id
  | none => resolve_legacy st.root media_id

/-- `Storage.get_media_path` (storage.py 249-259). -/
def get_media_path (st : Store) (media_id : String) : Except Err (List String) :=
  get_safe_file_path st media_id

/-- `Storage.media_exists` (storage.py 233-247): catches only `ValueError`;
a `FileNotFoundError` from path resolution propagates. -/
def media_exists (st : Store) (media_id : String) : Except Err Bool :=
  match get_safe_file_path st media_id with
  | .ok p => .ok (pathExists st p)
  | .error (.valueError _) => .ok false
  | .error e => .error e

/-- `Storage.get_media` (storage.py 199-215).  (Reading a directory would be
an `IsADirectoryError` in the source; the model reports it as not-found, a
case no modelled flow reaches.) -/
def get_media (st : Store) (media_id : String) : Except Err (List Nat) :=
  match get_safe_file_path st media_id with
  | .error e => .error e
  | .ok p =>
    if pathExists st p then
      match lookupFile st p with
      | some d => .ok d
      | none => .error (.fileNotFound ("Media file " ++ media_id ++ " not found."))
    else .error (.fileNotFound ("Media file " ++ media_id ++ " not found."))

/-- `Storage.delete_media` (storage.py 217-231): removes the file, then its
metadata side-file. -/
def delete_media (st : Store) (media_id : String) : Except Err Store :=
  match get_safe_file_path st media_id with
  | .error e => .error e
  | .ok p =>
    if pathExists st p then
      .ok (delete_file_metadata
        { st with files := eraseKey (normComps p) st.files } media_id)
    else .error (.fileNotFound ("Media file " ++ media_id ++ " not found."))

/-- `Storage.create_tmp_file_id` (storage.py 320-330). -/
def create_tmp_file_id (media_id : String) : String := media_id ++ ".tmp"

/-- `Storage.create_tmp_file` (storage.py 332-347): resolves `<id>.tmp`
through `get_media_path` and creates it empty. -/
def create_tmp_file (st : Store) (media_id : String) : Except Err (String × Store) :=
  match get_media_path st (media_id ++ ".tmp") with
  | .error e => .error e
  | .ok p => .ok (media_id ++ ".tmp", writeFile st p [])

/-- The `file_status` endpoint (server.py 443-473): the optional `folder_path`
URL segment never changes `expected_file_id`, which is always `file_id`. -/
def file_status (st : Store) (file_id : String) : Except Err String :=
  match media_exists st (create_tmp_file_id file_id) with
  | .error e => .error e
  | .ok true => .ok "processing"
  | .ok false =>
    match media_exists st file_id with
    | .error e => .error e
    | .ok true => .ok "ready"
    | .ok false => .ok "not_found"

/-! ### Filename sanitisation and uploads -/

/-- The character class of `re.sub` in `_sanitize_filename` (storage.py 879). -/
def dangerousChars : List Char := ['<', '>', ':', '"', '/', '\\', '|', '?', '*']

/-- ASCII fragment of Python's regex `\s` / `str.strip` whitespace. -/
def isPyWhitespace (c : Char) : Bool :=
  c = ' ' || c = '\t' || c = '\n' || c = '\r' || c = '\x0b' || c = '\x0c'

/-- Helper: one pass of replacing maximal whitespace runs by a single space
(`re.sub` with a whitespace-class pattern, storage.py 882). -/
def collapseRunsAux (p : Char → Bool) (rep : Char) : Bool → List Char → List Char
  | _, [] => []
  | prev, c :: cs =>
    if p c then
      if prev then collapseRunsAux p rep true cs
      else rep :: collapseRunsAux p rep true cs
    else c :: collapseRunsAux p rep false cs

/-- Replaces each maximal run of `p`-characters by a single `rep`. -/
def collapseRuns (p : Char → Bool) (rep : Char) (cs : List Char) : List Char :=
  collapseRunsAux p rep false cs

/-- Python `str.strip()`-style trimming with predicate `p`. -/
def stripEnds (p : Char → Bool) (cs : List Char) : List Char :=
  ((cs.dropWhile p).reverse.dropWhile p).reverse

/-- `Storage._sanitize_filename` (storage.py 866-895).  The source draws a
fresh UUID4 when the name sanitises to nothing; that value is the explicit
`fallbackId` parameter here. -/
def sanitize_filename (fallbackId : String) (filename : String) : String :=
  let s1 := filename.data.filter (fun c => !(dangerousChars.contains c))
  let s2 := collapseRuns isPyWhitespace ' ' s1
  let s3 := stripEnds isPyWhitespace s2
  let s4 := if s3.isEmpty then fallbackId.data else s3
  String.mk (if s4.length > 50 then s4.take 50 else s4)

/-- The filename built from a fresh UUID stem and the optional extension
(the `f"{asset_id}{file_extension}" if file_extension else asset_id` pattern
of storage.py 182-183, 276-277, 315-316, 460-465). -/
def uuidFilename (freshId file_extension : String) : String :=
  if file_extension ≠ "" then freshId ++ file_extension else freshId

/-- The filename `upload_media` (and `create_media_filename_with_custom_name`)
chooses: the sanitised custom name when one is given, else a fresh UUID stem
(storage.py 176-183). -/
def bucketFilename (freshId file_extension custom_name : String) : String :=
  if custom_name ≠ "" then
    if file_extension ≠ "" then sanitize_filename freshId custom_name ++ file_extension
    else sanitize_filename freshId custom_name
  else uuidFilename freshId file_extension

/-- `Storage.upload_media` (storage.py 145-197).  `freshId` is the UUID4 the
source draws (the filename stem without a custom name, the sanitiser's
fallback with one). -/
def upload_media (st : Store) (freshId : String) (media_type : String)
    (media_data : List Nat) (file_extension : String) (custom_name : String) :
    Except Err (String × Store) :=
  if ¬ validMediaTypes.contains media_type then
    .error (.valueError ("Invalid media type: " ++ media_type))
  else if file_extension ≠ "" && (containsSub ".." file_extension ||
      containsSub "/" file_extension || containsSub "\\" file_extension) then
    .error (.valueError "File extension contains invalid characters")
  else if custom_name ≠ "" && (containsSub ".." custom_name ||
      containsSub "/" custom_name || containsSub "\\" custom_name) then
    .error (.valueError "Custom name contains invalid characters")
  else
    let rel := [media_type, bucketFilename freshId file_extension custom_name]
    if ¬ strStartsWith (renderAbs (normComps (st.root ++ rel)))
        (renderAbs (normComps st.root)) then
      .error (.valueError "Path traversal attempt detected")
    else
      .ok (media_type ++ "_" ++ bucketFilename freshId file_extension custom_name,
           writeFile st rel media_data)

/-! ### Folder names, folder-path resolution and folder operations -/

/-- `Storage._normalize_folder_name` (storage.py 955-989).  The `NFD`
accent-stripping step is the identity on the ASCII names this development
evaluates and is modelled as such; then lower-case, non-`[a-z0-9_]` to `_`,
collapse runs of `_`, strip `_`, and fall back to `"folder"`. -/
def normalize_folder_name (folder_name : String) : String :=
  let lowered := folder_name.data.map Char.toLower
  let replaced := lowered.map (fun c =>
    if ('a' ≤ c ∧ c ≤ 'z') ∨ ('0' ≤ c ∧ c ≤ '9') ∨ c = '_' then c else '_')
  let collapsed := collapseRuns (fun c => c = '_') '_' replaced
  let stripped := stripEnds (fun c => c = '_') collapsed
  if stripped.isEmpty then "folder" else String.mk stripped

/-- `os.listdir` restricted to subdirectories of `base`, in `Store.dirs`
order (the order the `_get_folder_name_from_id` loop scans). -/
def childrenDirs (st : Store) (base : List String) : List String :=
  st.dirs.filterMap (fun d =>
    if d.dropLast = normComps base ∧ d.length = (normComps base).length + 1 then d.getLast?
    else none)

/-- `Storage._get_folder_name_from_id` (storage.py 1085-1127): maps a
normalized folder id (or literal name) back to the real directory name under
`parent_folder`, returning the argument itself when nothing matches. -/
def get_folder_name_from_id (st : Store) (folder_id : String) (parent_folder : String) : String :=
  if folder_id = "" then folder_id
  else
    let base := if parent_folder ≠ "" then ["folders"] ++ splitPath parent_folder
      else ["folders"]
    if ¬ pathExists st base then folder_id
    else
      match (childrenDirs st base).find? (fun item =>
          normalize_folder_name item == folder_id || item == folder_id) with
      | some item => item
      | none => folder_id

/-- The segment loop shared by `upload_media_to_folder`, `delete_folder`,
`_count_files_in_folder` and `list_folder_contents` (e.g. storage.py 773-781):
resolves each `/`-separated segment against the already-resolved parent. -/
def resolvePartsGo (st : Store) (acc : List String) : List String → List String
  | [] => acc
  | part :: rest =>
    resolvePartsGo st (acc ++ [get_folder_name_from_id st part (joinWith "/" acc)]) rest

/-- The `folder_path` conversion block those four methods share
(storage.py 770-786): single segments go through `_get_folder_name_from_id`
directly, `/`-separated paths segment by segment. -/
def resolveFolderPath (st : Store) (folder_path : String) : String :=
  if folder_path = "" then folder_path
  else if containsSub "/" folder_path then
    joinWith "/" (resolvePartsGo st [] (splitPath folder_path))
  else
    get_folder_name_from_id st folder_path ""

/-- The protected folders of `delete_folder` (storage.py 789). -/
def protectedFolders : List String := ["temp", "Background Music"]

/-- `Storage.delete_folder` (storage.py 759-801): resolves the addressing
form, rejects empty or protected results with `ValueError`, returns `False`
for a missing directory and otherwise `shutil.rmtree`s it. -/
def delete_folder (st : Store) (folder_path0 : String) : Except Err (Bool × Store) :=
  let folder_path := resolveFolderPath st folder_path0
  if folder_path = "" ∨ protectedFolders.contains folder_path then
    .error (.valueError "Cannot delete protected folder or empty path")
  else
    let full := ["folders"] ++ splitPath folder_path
    if ¬ pathExists st full then .ok (false, st)
    else
      .ok (true, { st with
        files := st.files.filter (fun kv => !((normComps full).isPrefixOf kv.1)),
        dirs := st.dirs.filter (fun d => !((normComps full).isPrefixOf d)) })

/-- `Storage.upload_media_to_folder` (storage.py 403-497).  `deadId` is the
UUID the source draws for the unused `filename` binding of lines 454-461 (dead
there: lines 463-465 overwrite it); `freshId` is the one that becomes the
media id and the filename stem. -/
def upload_media_to_folder (st : Store) (deadId freshId : String) (media_type : String)
    (media_data : List Nat) (file_extension folder_path0 custom_name : String) :
    Except Err (String × Store) :=
  if ¬ validMediaTypes.contains media_type then
    .error (.valueError ("Invalid media type: " ++ media_type))
  else
    let folder_path := resolveFolderPath st folder_path0
    if file_extension ≠ "" && (containsSub ".." file_extension ||
        containsSub "/" file_extension || containsSub "\\" file_extension) then
      .error (.valueError "File extension contains invalid characters")
    else if custom_name ≠ "" && (containsSub ".." custom_name ||
        containsSub "/" custom_name || containsSub "\\" custom_name) then
      .error (.valueError "Custom name contains invalid characters")
    else
      let _filename := bucketFilename deadId file_extension custom_name
      let safe_filename := uuidFilename freshId file_extension
      let media_id := freshId
      let stp : Store × List String :=
        if folder_path ≠ "" then
          (addDir st (["folders"] ++ splitPath folder_path),
           ["folders"] ++ splitPath folder_path ++ [safe_filename])
        else (st, [media_type, safe_filename])
      if ¬ strStartsWith (renderAbs (normComps (st.root ++ stp.2)))
          (renderAbs (normComps st.root)) then
        .error (.valueError "Path traversal attempt detected")
      else
        let st2 := writeFile stp.1 stp.2 media_data
        let st3 := if custom_name ≠ "" then
            save_file_metadata st2 media_id
              { custom_name := custom_name, original_filename := custom_name,
                media_type := media_type, folder_path := folder_path,
                file_extension := file_extension }
          else st2
        .ok (media_id, st3)

/-! ### Filename allocation (`create_media_filename*`, storage.py 262-318) -/

/-- `Storage.create_media_filename` (storage.py 262-278). -/
def create_media_filename (freshId media_type file_extension : String) : Except Err String :=
  if ¬ validMediaTypes.contains media_type then
    .error (.valueError ("Invalid media type: " ++ media_type))
  else if file_extension ≠ "" && (containsSub ".." file_extension ||
      containsSub "/" file_extension || containsSub "\\" file_extension) then
    .error (.valueError "File extension contains invalid characters")
  else
    .ok (media_type ++ "_" ++ uuidFilename freshId file_extension)

/-- `Storage.create_media_filename_with_custom_name` (storage.py 289-318). -/
def create_media_filename_with_custom_name (freshId media_type file_extension custom_name : String) :
    Except Err String :=
  if ¬ validMediaTypes.contains media_type then
    .error (.valueError ("Invalid media type: " ++ media_type))
  else if file_extension ≠ "" && (containsSub ".." file_extension ||
      containsSub "/" file_extension || containsSub "\\" file_extension) then
    .error (.valueError "File extension contains invalid characters")
  else if custom_name ≠ "" && (containsSub ".." custom_name ||
      containsSub "/" custom_name || containsSub "\\" custom_name) then
    .error (.valueError "Custom name contains invalid characters")
  else
    .ok (media_type ++ "_" ++ bucketFilename freshId file_extension custom_name)

/-- `Storage.create_media_filename_with_id` (storage.py 280-287): allocates
the id, then resolves its path through `get_media_path`. -/
def create_media_filename_with_id (st : Store) (freshId media_type file_extension custom_name : String) :
    Except Err (String × List String) :=
  match (if custom_name ≠ "" then
      create_media_filename_with_custom_name freshId media_type file_extension custom_name
    else create_media_filename freshId media_type file_extension) with
  | .error e => .error e
  | .ok file_id =>
    match get_media_path st file_id with
    | .error e => .error e
    | .ok p => .ok (file_id, p)

/-! ### The TTS endpoints (server.py 133-281) -/

/-- Remaining-permit counts of the three module-level pools (server.py 22-29;
default capacities: tts 2, video 1, heavy 3). -/
structure Sems where
  ttsAvail : Nat
  videoAvail : Nat
  heavyAvail : Nat
deriving DecidableEq, Repr

/-- `asyncio.Semaphore.locked()`: no permit immediately available. -/
def sem_locked (avail : Nat) : Bool := avail == 0

/-- HTTP outcome of an endpoint's synchronous part. -/
inductive HttpResp where
  | fileId (file_id : String)
  | httpError (code : Nat) (msg : String)
deriving DecidableEq, Repr

/-- `TTS().valid_kokoro_voices()` (tts.py 377-387): every voice of
`LANGUAGE_VOICE_CONFIG`, in dict insertion order. -/
def kokoroVoices : List String :=
  ["af_heart", "af_alloy", "af_aoede", "af_bella", "af_jessica", "af_kore",
   "af_nicole", "af_nova", "af_river", "af_sarah", "af_sky", "am_adam",
   "am_echo", "am_eric", "am_fenrir", "am_liam", "am_michael", "am_onyx",
   "am_puck", "am_santa",
   "bf_alice", "bf_emma", "bf_isabella", "bf_lily", "bm_daniel", "bm_fable",
   "bm_george", "bm_lewis",
   "zf_xiaobei", "zf_xiaoni", "zf_xiaoxiao", "zf_xiaoyi", "zm_yunjian",
   "zm_yunxi", "zm_yunxia", "zm_yunyang",
   "ef_dora", "em_alex", "em_santa",
   "ff_siwis",
   "if_sara", "im_nicola",
   "pf_dora", "pm_alex", "pm_santa",
   "hf_alpha", "hf_beta", "hm_omega", "hm_psi"]

/-- Synchronous part of the `generate_kokoro_tts` endpoint (server.py
133-189): admission peek first, then default voice, voice validation,
final-id allocation and temp-marker creation; the deferred work is
`kokoro_bg_task`. -/
def generate_kokoro_tts (sems : Sems) (st : Store) (freshId : String)
    (voiceForm nameForm : Option String) : Except Err (HttpResp × Store) :=
  if sem_locked sems.ttsAvail || sem_locked sems.heavyAvail then
    .ok (.httpError 429 "Server busy processing other TTS requests. Please try again later.", st)
  else
    let voice := match voiceForm with
      | none => "af_heart"
      | some v => if v = "" then "af_heart" else v
    if ¬ kokoroVoices.contains voice then
      .ok (.httpError 400 ("Invalid voice: " ++ voice), st)
    else
      match create_media_filename_with_id st freshId "audio" ".wav" (nameForm.getD "") with
      | .error e => .error e
      | .ok (audio_id, _audio_path) =>
        match create_tmp_file st audio_id with
        | .error e => .error e
        | .ok (_tmp_id, st1) => .ok (.fileId audio_id, st1)

/-- Synchronous part of the `generate_chatterbox_tts` endpoint (server.py
192-281): admission peek first; `freshId` is the UUID of the intermediate
audio in `folders/temp`, `uploadFreshId` the UUID `upload_media` would draw
for an uploaded sample; `sampleFile` the optional uploaded `.wav` (filename,
bytes), `sampleAudioId` the optional id of a stored sample (the source treats
an empty string like its absence). -/
def generate_chatterbox_tts (sems : Sems) (st : Store) (freshId uploadFreshId : String)
    (sampleFile : Option (String × List Nat)) (sampleAudioId : Option String) :
    Except Err (HttpResp × Store) :=
  if sem_locked sems.ttsAvail || sem_locked sems.heavyAvail then
    .ok (.httpError 429 "Server busy processing other TTS requests. Please try again later.", st)
  else
    let st0 := addDir st ["folders", "temp"]
    let audio_id := "folder_temp_audio_" ++ freshId ++ ".wav"
    let finish : Store → Except Err (HttpResp × Store) := fun stx =>
      match create_tmp_file stx audio_id with
      | .error e => .error e
      | .ok (_tmp, st2) => .ok (.fileId audio_id, st2)
    match sampleFile with
    | some (fn, data) =>
      if fn = "" || !(strEndsWith fn ".wav") then
        .ok (.httpError 400 "Sample audio file must be a .wav file.", st0)
      else
        match upload_media st0 uploadFreshId "audio" data ".wav" "" with
        | .error e => .error e
        | .ok (sid, st1) =>
          match get_media_path st1 sid with
          | .error e => .error e
          | .ok _ => finish st1
    | none =>
      match sampleAudioId with
      | some sid =>
        if sid = "" then finish st0
        else
          match media_exists st0 sid with
          | .error e => .error e
          | .ok false =>
            .ok (.httpError 404 ("Sample audio with ID " ++ sid ++ " not found."), st0)
          | .ok true =>
            match get_media_path st0 sid with
            | .error e => .error e
            | .ok _ => finish st0
      | none => finish st0

/-! ### The deferred kokoro job (server.py 165-187) -/

/-- The deferred work of `generate_kokoro_tts` once its permits are held: the
worker-thread synthesis is the external collaborator, modelled by `computeOk`
(when true it writes the output file, when false it raises, and the `except`
clause swallows the error); then the `finally:` block deletes the temp
marker.  Waiting on the semaphores is modelled separately (`SemStep`). -/
def kokoro_bg_task (st : Store) (computeOk : Bool) (audio_path : List String)
    (audioBytes : List Nat) (tmp_file_id : String) : Except Err Store :=
  delete_media (if computeOk then writeFile st audio_path audioBytes else st) tmp_file_id

/-- An accepted kokoro TTS job end to end, as C5 quantifies it: the final
id's path is resolved, its temp marker is created (job accepted, server.py
160-163), then the deferred work runs and cleans up. -/
def kokoro_accepted_run (st : Store) (audio_id : String) (computeOk : Bool)
    (audioBytes : List Nat) : Except Err (String × Store) :=
  match get_media_path st audio_id with
  | .error e => .error e
  | .ok audio_path =>
    match create_tmp_file st audio_id with
    | .error e => .error e
    | .ok (tmp_id, st1) =>
      match kokoro_bg_task st1 computeOk audio_path audioBytes tmp_id with
      | .error e => .error e
      | .ok st2 => .ok (tmp_id, st2)

/-! ### Result accessors used by concrete-instance theorems -/

def okId (r : Except Err (String × Store)) : String :=
  match r with
  | .ok (i, _) => i
  | .error _ => ""

def okStore (r : Except Err (String × Store)) (d : Store) : Store :=
  match r with
  | .ok (_, s) => s
  | .error _ => d

def okBool (r : Except Err (Bool × Store)) : Bool :=
  match r with
  | .ok (b, _) => b
  | .error _ => false

def okStoreB (r : Except Err (Bool × Store)) (d : Store) : Store :=
  match r with
  | .ok (_, s) => s
  | .error _ => d

/-! ### The admission pools as a transition system (C9)

`asyncio.Semaphore` is standard-library code (not under `src/`); it is
modelled by its documented counting semantics: `acquire` blocks until the
counter is positive and decrements it, `release` increments it.  A kokoro TTS
job body runs inside `async with tts_semaphore: async with
heavy_tasks_semaphore:` (server.py 166-167), so a task acquires `tts`, then
`heavy`, runs its body, then releases `heavy`, then `tts`; `async with`
guarantees the releases on every exit path. -/

/-- Where one deferred TTS job stands. -/
inductive Phase where
  | idle | hasTts | inBody | releasedHeavy | done
deriving DecidableEq, Repr

/-- Permit counters plus the phase of every task. -/
structure SemState where
  tts : Nat
  heavy : Nat
  tasks : List Phase
deriving DecidableEq, Repr

/-- Phases that hold a `tts` permit. -/
def holdsTts (ph : Phase) : Bool :=
  ph == Phase.hasTts || ph == Phase.inBody || ph == Phase.releasedHeavy

/-- How many tasks hold a `tts` permit. -/
def countTtsHolders (s : SemState) : Nat := (s.tasks.filter holdsTts).length

/-- How many job bodies execute simultaneously. -/
def countInBody (s : SemState) : Nat := (s.tasks.filter (· == Phase.inBody)).length

/-- Interleaved execution steps of the deferred jobs.  `acquireTts` is only
enabled while `0 < tts`: a task whose acquisition is not enabled blocks. -/
inductive SemStep : SemState → SemState → Prop where
  | acquireTts (s : SemState) (i : Nat) (hi : s.tasks.get? i = some Phase.idle)
      (ht : 0 < s.tts) :
      SemStep s ⟨s.tts - 1, s.heavy, s.tasks.set i Phase.hasTts⟩
  | acquireHeavy (s : SemState) (i : Nat) (hi : s.tasks.get? i = some Phase.hasTts)
      (hh : 0 < s.heavy) :
      SemStep s ⟨s.tts, s.heavy - 1, s.tasks.set i Phase.inBody⟩
  | releaseHeavy (s : SemState) (i : Nat) (hi : s.tasks.get? i = some Phase.inBody) :
      SemStep s ⟨s.tts, s.heavy + 1, s.tasks.set i Phase.releasedHeavy⟩
  | releaseTts (s : SemState) (i : Nat) (hi : s.tasks.get? i = some Phase.releasedHeavy) :
      SemStep s ⟨s.tts + 1, s.heavy, s.tasks.set i Phase.done⟩

/-- Reachability. -/
inductive SemReach : SemState → SemState → Prop where
  | refl (s : SemState) : SemReach s s
  | step {a b c : SemState} : SemReach a b → SemStep b c → SemReach a c

/-- `n` deferred TTS jobs against the default capacities
`MAX_CONCURRENT_TTS = 2` and `MAX_CONCURRENT_HEAVY_TASKS = 3`
(server.py 22-29). -/
def semInit (n : Nat) : SemState := ⟨2, 3, List.replicate n Phase.idle⟩

/-- The permit-accounting invariant of the pools. -/
def SemInv (s : SemState) : Prop :=
  s.tts + countTtsHolders s = 2 ∧ s.heavy + countInBody s = 3

/-! ### Concrete stores used by counterexamples and witnesses -/

/-- Resulting store of the concrete bucket upload used by C6. -/
def bucketUploadExample : Store :=
  { root := ["app"]
    files := [(["image", "cover.jpg"], [9])]
    dirs := [["image"], ["video"], ["audio"], ["tmp"], ["folders"],
             ["folders", "temp"], ["folders", "Background Music"]]
    meta := [] }

/-- Resulting store of the concrete folder upload used by C6. -/
def folderUploadExample : Store :=
  { root := ["app"]
    files := [(["folders", "Clips", "u2.jpg"], [7])]
    dirs := [["image"], ["video"], ["audio"], ["tmp"], ["folders"],
             ["folders", "temp"], ["folders", "Background Music"], ["folders", "Clips"]]
    meta := [("u2", { custom_name := "cover", original_filename := "cover",
                      media_type := "image", folder_path := "Clips",
                      file_extension := ".jpg" })] }

/-- Store left after the counterexample deletion: the protected `temp`
folder is gone. -/
def tempDeletedExample : Store :=
  { root := ["app"]
    files := []
    dirs := [["image"], ["video"], ["audio"], ["tmp"], ["folders"],
             ["folders", "Background Music"]]
    meta := [] }

/-! ### Facts about validation and normalisation used throughout -/

theorem isInfixList_self (l : List Char) : isInfixList l l = true := by
  cases l with
  | nil => rfl
  | cons x t =>
    unfold isInfixList
    have : (x :: t).isPrefixOf (x :: t) = true :=
      List.isPrefixOf_iff_prefix.mpr (List.prefix_refl _)
    simp [this]

theorem containsSub_self (s : String) : containsSub s s = true :=
  isInfixList_self s.data

/-- Unpacks what `_validate_media_id` guarantees on success. -/
theorem validate_media_id_spec (media_id t f : String)
    (h : validate_media_id media_id = some (t, f)) :
    validMediaTypes.contains t = true ∧ containsSub ".." f = false ∧
      containsSub "/" f = false ∧ containsSub "\\" f = false ∧
      f ≠ "" ∧ f.length ≤ 255 := by
  unfold validate_media_id at h
  split at h
  · simp at h
  split at h
  · simp at h
  next x tl fl heq =>
    split at h
    · simp at h
    next hty =>
    split at h
    · simp at h
    next hsub =>
    split at h
    · simp at h
    next hlen =>
    injection h with h
    injection h with h1 h2
    subst h1; subst h2
    have hty2 : validMediaTypes.contains (String.mk tl) = true := not_not.mp hty
    simp only [Bool.or_eq_true, not_or, Bool.not_eq_true] at hsub
    obtain ⟨⟨hs1, hs2⟩, hs3⟩ := hsub
    simp only [Bool.or_eq_true, decide_eq_true_eq, not_or, not_lt] at hlen
    exact ⟨hty2, hs1, hs2, hs3, hlen.1, hlen.2⟩

theorem validMediaTypes_not_dots (t : String) (ht : validMediaTypes.contains t = true) :
    ¬ (t = "" ∨ t = ".") ∧ t ≠ ".." := by
  have hmem : t = "image" ∨ t = "video" ∨ t = "audio" ∨ t = "tmp" := by
    have h2 := List.contains_iff_exists_mem_beq.mp ht
    simpa [validMediaTypes] using h2
  rcases hmem with rfl | rfl | rfl | rfl <;> exact ⟨by simp, by simp⟩

theorem normComps_append (xs ys : List String) :
    normComps (xs ++ ys) = ys.foldl normStep (normComps xs) := by
  unfold normComps
  exact List.foldl_append ..

/-- Appending a category and a safe filename to any absolute path normalises to
the normalisation of the path followed by a nonempty suffix. -/
theorem normComps_two (xs : List String) (t f : String)
    (ht : ¬ (t = "" ∨ t = ".")) (ht2 : t ≠ "..") (hf2 : f ≠ "..") :
    normComps (xs ++ [t, f]) =
      if f = "" ∨ f = "." then normComps xs ++ [t] else normComps xs ++ [t, f] := by
  rw [normComps_append]
  show normStep (normStep (normComps xs) t) f = _
  rw [show normStep (normComps xs) t = normComps xs ++ [t] by
    unfold normStep; rw [if_neg ht, if_neg ht2]]
  unfold normStep
  split
  · rfl
  · simp

theorem renderComps_append (xs ys : List String) :
    renderComps (xs ++ ys) = renderComps xs ++ renderComps ys := by
  induction xs with
  | nil => simp [renderComps]
  | cons c cs ih => simp [renderComps, ih, String.append_assoc]

theorem strStartsWith_append (a b : String) : strStartsWith (a ++ b) a = true := by
  unfold strStartsWith
  rw [String.data_append]
  exact List.isPrefixOf_iff_prefix.mpr (List.prefix_append ..)

theorem renderAbs_prefix (pre suf : List String) (h : suf ≠ []) :
    strStartsWith (renderAbs (pre ++ suf)) (renderAbs pre) = true := by
  cases pre with
  | nil =>
    cases suf with
    | nil => exact absurd rfl h
    | cons c cs =>
      have e1 : renderAbs ([] ++ c :: cs) = ("/" ++ c) ++ renderComps cs := rfl
      have e2 : renderAbs ([] : List String) = "/" := rfl
      rw [e1, e2]
      unfold strStartsWith
      apply List.isPrefixOf_iff_prefix.mpr
      rw [String.data_append, String.data_append, List.append_assoc]
      exact List.prefix_append ..
  | cons p ps =>
    have h1 : renderAbs (p :: ps ++ suf) = renderComps (p :: ps) ++ renderComps suf := by
      unfold renderAbs
      rw [if_neg (by simp), renderComps_append]
    have h2 : renderAbs (p :: ps) = renderComps (p :: ps) := by
      unfold renderAbs; rw [if_neg (by simp)]
    rw [h1, h2]
    exact strStartsWith_append ..

theorem strStartsWith_refl (s : String) : strStartsWith s s = true :=
  List.isPrefixOf_iff_prefix.mpr (List.prefix_refl _)

theorem strStartsWith_false_of_longer (s p : String) (h : s.length < p.length) :
    strStartsWith s p = false := by
  cases hb : strStartsWith s p with
  | false => rfl
  | true =>
    exfalso
    have hle := (List.isPrefixOf_iff_prefix.mp hb).length_le
    have hs : s.length = s.data.length := rfl
    have hp : p.length = p.data.length := rfl
    omega

theorem strStartsWith_of_append (s a b : String) (h : strStartsWith s (a ++ b) = true) :
    strStartsWith s a = true := by
  unfold strStartsWith at h ⊢
  apply List.isPrefixOf_iff_prefix.mpr
  have h2 := List.isPrefixOf_iff_prefix.mp h
  rw [String.data_append] at h2
  exact (List.prefix_append a.data b.data).trans h2

/-- The defense-in-depth `startswith` re-check passes for every known category
and every filename free of `..`. -/
theorem abs_check_passes (root : List String) (t f : String)
    (hty : validMediaTypes.contains t = true) (hdd : containsSub ".." f = false) :
    strStartsWith (renderAbs (normComps (root ++ [t, f]))) (renderAbs (normComps root)) = true := by
  obtain ⟨ht1, ht2⟩ := validMediaTypes_not_dots t hty
  have hf2 : f ≠ ".." := fun hf => by rw [hf, containsSub_self] at hdd; cases hdd
  rw [normComps_two root t f ht1 ht2 hf2]
  split
  · exact renderAbs_prefix _ [t] (by simp)
  · exact renderAbs_prefix _ [t, f] (by simp)

theorem legacy_try_ok_of_valid (root : List String) (media_id t f : String)
    (h : validate_media_id media_id = some (t, f)) :
    legacy_try root media_id = .ok [t, f] := by
  obtain ⟨hty, hdd, _, _, _, _⟩ := validate_media_id_spec media_id t f h
  unfold legacy_try
  rw [h]
  simp only [abs_check_passes root t f hty hdd, if_true]

theorem resolve_legacy_ok_of_valid (root : List String) (media_id t f : String)
    (h : validate_media_id media_id = some (t, f)) :
    resolve_legacy root media_id = .ok [t, f] := by
  unfold resolve_legacy
  rw [legacy_try_ok_of_valid root media_id t f h]

/-- C1: for every media id accepted by identifier validation (non-empty, has
the category/filename separator, known category, non-empty filename of at most
255 characters containing none of `..`, `/`, `\`), the absolute path the
legacy branch of `_get_safe_file_path` re-derives is prefixed by the storage
root's absolute path, so the `Path traversal attempt detected` branch is
unreachable and the joined path is returned.  Quantified over every storage
root (as the component list of its absolute path). -/
theorem resolve_prefixed_for_valid_ids (root : List String) (media_id t f : String)
    (h : validate_media_id media_id = some (t, f)) :
    legacy_try root media_id = .ok [t, f] ∧
    strStartsWith (renderAbs (normComps (root ++ [t, f]))) (renderAbs (normComps root)) = true := by
  obtain ⟨hty, hdd, _, _, _, _⟩ := validate_media_id_spec media_id t f h
  exact ⟨legacy_try_ok_of_valid root media_id t f h, abs_check_passes root t f hty hdd⟩

/-- Witness for C1 at a concrete storage root and media id. -/
theorem resolve_prefixed_for_valid_ids_witness :
    validate_media_id "image_pic.jpg" = some ("image", "pic.jpg") ∧
    (legacy_try ["srv", "media"] "image_pic.jpg" = .ok ["image", "pic.jpg"] ∧
     strStartsWith (renderAbs (normComps (["srv", "media"] ++ ["image", "pic.jpg"])))
       (renderAbs (normComps ["srv", "media"])) = true) :=
  ⟨by decide,
   resolve_prefixed_for_valid_ids ["srv", "media"] "image_pic.jpg" "image" "pic.jpg" (by decide)⟩

/-! ### Association-list and store lemmas -/

theorem lookupA_eraseKey_self {α β : Type} [DecidableEq α] (key : α) (l : List (α × β)) :
    lookupA key (eraseKey key l) = none := by
  unfold eraseKey
  induction l with
  | nil => rfl
  | cons kv rest ih =>
    by_cases hk : kv.1 = key
    · rw [List.filter_cons_of_neg (by simp [hk])]
      exact ih
    · rw [List.filter_cons_of_pos (by simp [hk])]
      simp only [lookupA]
      rw [if_neg hk]
      exact ih

theorem lookupA_eraseKey_of_ne {α β : Type} [DecidableEq α] (key other : α) (l : List (α × β))
    (h : key ≠ other) :
    lookupA key (eraseKey other l) = lookupA key l := by
  unfold eraseKey
  induction l with
  | nil => rfl
  | cons kv rest ih =>
    by_cases hk : kv.1 = other
    · rw [List.filter_cons_of_neg (by simp [hk])]
      rw [ih]
      simp only [lookupA]
      rw [if_neg (fun hh => h (hh.symm.trans hk))]
    · rw [List.filter_cons_of_pos (by simp [hk])]
      simp only [lookupA]
      by_cases hq : kv.1 = key
      · rw [if_pos hq, if_pos hq]
      · rw [if_neg hq, if_neg hq]
        exact ih

theorem lookupA_append_left {α β : Type} [DecidableEq α] (key : α) (l1 l2 : List (α × β))
    (v : β) (h : lookupA key l1 = some v) : lookupA key (l1 ++ l2) = some v := by
  induction l1 with
  | nil => simp [lookupA] at h
  | cons kv rest ih =>
    rw [List.cons_append]
    simp only [lookupA] at h ⊢
    by_cases hq : kv.1 = key
    · rw [if_pos hq] at h ⊢
      exact h
    · rw [if_neg hq] at h ⊢
      exact ih h

theorem lookupA_append_right {α β : Type} [DecidableEq α] (key : α) (l1 l2 : List (α × β))
    (h : lookupA key l1 = none) : lookupA key (l1 ++ l2) = lookupA key l2 := by
  induction l1 with
  | nil => rfl
  | cons kv rest ih =>
    rw [List.cons_append]
    simp only [lookupA] at h ⊢
    by_cases hq : kv.1 = key
    · rw [if_pos hq] at h
      cases h
    · rw [if_neg hq] at h ⊢
      exact ih h

theorem lookupA_cons_self {α β : Type} [DecidableEq α] (key : α) (v : β) (l : List (α × β)) :
    lookupA key ((key, v) :: l) = some v := by
  simp [lookupA]

theorem lookupFile_writeFile_self (st : Store) (p : List String) (d : List Nat) :
    lookupFile (writeFile st p d) p = some d := by
  unfold lookupFile writeFile
  show lookupA (normComps p) (eraseKey (normComps p) st.files ++ [(normComps p, d)]) = some d
  rw [lookupA_append_right _ _ _ (lookupA_eraseKey_self _ _)]
  exact lookupA_cons_self ..

theorem lookupFile_writeFile_other (st : Store) (p q : List String) (d : List Nat)
    (h : normComps q ≠ normComps p) :
    lookupFile (writeFile st p d) q = lookupFile st q := by
  unfold lookupFile writeFile
  show lookupA (normComps q) (eraseKey (normComps p) st.files ++ [(normComps p, d)]) =
    lookupA (normComps q) st.files
  cases hv : lookupA (normComps q) st.files with
  | some v =>
    rw [lookupA_append_left _ _ _ v]
    rw [lookupA_eraseKey_of_ne _ _ _ h]
    exact hv
  | none =>
    rw [lookupA_append_right]
    · simp only [lookupA]
      rw [if_neg (fun hh => h hh.symm)]
    · rw [lookupA_eraseKey_of_ne _ _ _ h]
      exact hv

theorem writeFile_meta (st : Store) (p : List String) (d : List Nat) :
    (writeFile st p d).meta = st.meta := rfl

theorem writeFile_root (st : Store) (p : List String) (d : List Nat) :
    (writeFile st p d).root = st.root := rfl

/-- Members of the file table after a write: either an old entry or the new
one. -/
theorem mem_writeFile_files (st : Store) (p : List String) (d : List Nat)
    (kv : List String × List Nat) (h : kv ∈ (writeFile st p d).files) :
    kv ∈ st.files ∨ kv = (normComps p, d) := by
  unfold writeFile eraseKey at h
  rcases List.mem_append.mp h with h | h
  · exact Or.inl (List.mem_filter.mp h).1
  · exact Or.inr (List.mem_singleton.mp h)

/-! ### Resolution on fresh identifiers -/

theorem find_in_tree_eq_none (st : Store) (base : List String) (mid : String)
    (hfr : ∀ kv ∈ st.files, strStartsWith (lastComp kv.1) mid = false) :
    find_in_tree st base mid = none := by
  unfold find_in_tree
  rw [List.find?_eq_none.mpr]
  · rfl
  · intro kv hkv
    simp [hfr kv hkv]

theorem searchBasesGo_eq_none (st : Store) (mid : String)
    (hfr : ∀ kv ∈ st.files, strStartsWith (lastComp kv.1) mid = false)
    (bs : List (List String)) : searchBasesGo st mid bs = none := by
  induction bs with
  | nil => rfl
  | cons b rest ih =>
    unfold searchBasesGo
    rw [find_in_tree_eq_none st b mid hfr]
    split
    · exact ih
    · exact ih

theorem find_file_by_uuid_eq_none (st : Store) (mid : String)
    (hmeta : lookupA mid st.meta = none)
    (hfr : ∀ kv ∈ st.files, strStartsWith (lastComp kv.1) mid = false) :
    find_file_by_uuid st mid = none := by
  unfold find_file_by_uuid get_file_metadata
  rw [hmeta]
  exact searchBasesGo_eq_none st mid hfr _

theorem get_safe_fresh_valid (st : Store) (mid t f : String)
    (hmeta : lookupA mid st.meta = none)
    (hfr : ∀ kv ∈ st.files, strStartsWith (lastComp kv.1) mid = false)
    (hval : validate_media_id mid = some (t, f)) :
    get_safe_file_path st mid = .ok [t, f] := by
  unfold get_safe_file_path
  rw [find_file_by_uuid_eq_none st mid hmeta hfr]
  exact resolve_legacy_ok_of_valid st.root mid t f hval

theorem get_safe_fresh_invalid (st : Store) (mid : String)
    (hmeta : lookupA mid st.meta = none)
    (hfr : ∀ kv ∈ st.files, strStartsWith (lastComp kv.1) mid = false)
    (hval : validate_media_id mid = none) :
    get_safe_file_path st mid =
      .error (.fileNotFound ("Media file " ++ mid ++ " not found.")) := by
  unfold get_safe_file_path
  rw [find_file_by_uuid_eq_none st mid hmeta hfr]
  unfold resolve_legacy legacy_try
  rw [hval]

/-- Normalisation keeps a two-component path made of plain components. -/
theorem normComps_pair (a b : String) (haI : ¬ (a = "" ∨ a = ".")) (ha2 : a ≠ "..")
    (hbI : ¬ (b = "" ∨ b = ".")) (hb2 : b ≠ "..") : normComps [a, b] = [a, b] := by
  have h := normComps_two [] a b haI ha2 hb2
  rw [List.nil_append] at h
  rw [h, if_neg hbI]
  simp [normComps]

/-! ### C2, C3: the bare-UUID scheme breaks the marker and status operations -/

/-- C2 (code bug): on a bare-UUID media id — the current folder-based scheme,
which the captioned-video endpoint passes at server.py 814 and the
chatterbox endpoint's `folder_temp_audio_…` id also falls into — the
temp-marker create operation raises `FileNotFoundError` instead of creating
`<id>.tmp`: the id's `.tmp` variant neither matches any stored file nor
parses under the legacy `{category}_{filename}` grammar, so the bare
`except:` of `_get_safe_file_path` fires before anything is written. -/
theorem create_tmp_file_uuid_scheme_raises :
    create_tmp_file (initStore ["app", "media"]) "123e4567-e89b-12d3-a456-426614174000" =
      .error (.fileNotFound
        "Media file 123e4567-e89b-12d3-a456-426614174000.tmp not found.") := by
  decide

/-- C3 (code bug): the status endpoint is not total with three outcomes: for
a bare-UUID id that was never stored (docstring: `Works with UUID-only files
in folders`), the first `media_exists` call on `<id>.tmp` raises
`FileNotFoundError` (HTTP 500) instead of any of
`processing`/`ready`/`not_found`. -/
theorem file_status_uuid_scheme_raises :
    file_status (initStore ["app", "media"]) "9b2d8a1c-5f60-4c7e-9a3d-2f8e6b4c1d70" =
      .error (.fileNotFound
        "Media file 9b2d8a1c-5f60-4c7e-9a3d-2f8e6b4c1d70.tmp not found.") := by
  decide

/-! ### C10: `media_exists` propagates `FileNotFoundError` -/

/-- C10: for every identifier that no stored file's name starts with (and
with no metadata side-file) and that does not parse under the legacy
`{category}_{filename}` grammar, `media_exists` raises `FileNotFoundError`
rather than returning `False`: its handler catches only `ValueError`, while
`_get_safe_file_path` converts every failure into `FileNotFoundError`. -/
theorem media_exists_raises_for_unknown (st : Store) (mid : String)
    (hmeta : lookupA mid st.meta = none)
    (hfr : ∀ kv ∈ st.files, strStartsWith (lastComp kv.1) mid = false)
    (hval : validate_media_id mid = none) :
    media_exists st mid = .error (.fileNotFound ("Media file " ++ mid ++ " not found.")) := by
  unfold media_exists
  rw [get_safe_fresh_invalid st mid hmeta hfr hval]

/-- Witness for C10: a bare UUID that was never stored, on a fresh store. -/
theorem media_exists_raises_for_unknown_witness :
    lookupA "3a1f0e9d-7c2b-4e8f-8a51-6d9c0b3e2f41" (initStore ["app", "media"]).meta = none ∧
    (∀ kv ∈ (initStore ["app", "media"]).files,
      strStartsWith (lastComp kv.1) "3a1f0e9d-7c2b-4e8f-8a51-6d9c0b3e2f41" = false) ∧
    validate_media_id "3a1f0e9d-7c2b-4e8f-8a51-6d9c0b3e2f41" = none ∧
    media_exists (initStore ["app", "media"]) "3a1f0e9d-7c2b-4e8f-8a51-6d9c0b3e2f41" =
      .error (.fileNotFound
        ("Media file " ++ "3a1f0e9d-7c2b-4e8f-8a51-6d9c0b3e2f41" ++ " not found.")) :=
  ⟨rfl, by intro kv hkv; simp [initStore] at hkv, by decide,
   media_exists_raises_for_unknown (initStore ["app", "media"])
     "3a1f0e9d-7c2b-4e8f-8a51-6d9c0b3e2f41" rfl
     (by intro kv hkv; simp [initStore] at hkv) (by decide)⟩

/-! ### C5: guaranteed marker cleanup of accepted jobs -/

/-- `delete_media` on a fresh legacy-valid id whose resolved file exists:
it succeeds and the file is gone. -/
theorem delete_media_removes (st : Store) (mid t f : String)
    (hmeta : lookupA mid st.meta = none)
    (hfr : ∀ kv ∈ st.files, strStartsWith (lastComp kv.1) mid = false)
    (hval : validate_media_id mid = some (t, f))
    (hex : pathExists st [t, f] = true) :
    delete_media st mid =
      .ok (delete_file_metadata { st with files := eraseKey (normComps [t, f]) st.files } mid) ∧
    fileExists (delete_file_metadata
      { st with files := eraseKey (normComps [t, f]) st.files } mid) [t, f] = false := by
  constructor
  · unfold delete_media
    rw [get_safe_fresh_valid st mid t f hmeta hfr hval]
    simp only [hex, if_true]
  · unfold fileExists lookupFile delete_file_metadata
    show (lookupA (normComps [t, f]) (eraseKey (normComps [t, f]) st.files)).isSome = false
    rw [lookupA_eraseKey_self]
    rfl

/-- C5: for every accepted job — one whose final id validates under the
legacy scheme and whose temp marker was created against a store holding no
file that aliases the fresh id — the deferred execution path deletes the
temp marker whether the compute step succeeds (`computeOk = true`) or raises
(`computeOk = false`, swallowed by the `except` clause): no exit path of the
deferred work leaves the marker behind.  The kokoro TTS and video-merge
endpoints allocate ids of exactly this legacy shape (and they have no
intermediate temp ids); the chatterbox and captioned-video flows never reach
an accepted job because their `create_tmp_file` call itself raises (C2). -/
theorem accepted_job_marker_cleanup (st : Store) (f : String) (computeOk : Bool)
    (audioBytes : List Nat)
    (hval : validate_media_id ("audio_" ++ f) = some ("audio", f))
    (hvaltmp : validate_media_id ("audio_" ++ f ++ ".tmp") = some ("audio", f ++ ".tmp"))
    (hmeta : lookupA ("audio_" ++ f) st.meta = none)
    (hmetatmp : lookupA ("audio_" ++ f ++ ".tmp") st.meta = none)
    (hfr : ∀ kv ∈ st.files, strStartsWith (lastComp kv.1) ("audio_" ++ f) = false)
    (hfdot : f ≠ ".") :
    ∃ st2, kokoro_accepted_run st ("audio_" ++ f) computeOk audioBytes =
        .ok ("audio_" ++ f ++ ".tmp", st2) ∧
      fileExists st2 ["audio", f ++ ".tmp"] = false := by
  obtain ⟨_, hdd, _, _, hfne, _⟩ := validate_media_id_spec _ _ _ hval
  obtain ⟨_, hddt, _, _, hfnet, _⟩ := validate_media_id_spec _ _ _ hvaltmp
  have h4 : (".tmp" : String).length = 4 := rfl
  have h6 : ("audio_" : String).length = 6 := rfl
  have hlenft : (f ++ ".tmp").length = f.length + 4 := by
    rw [String.length_append]; omega
  have hlenaft : ("audio_" ++ f ++ ".tmp").length = 6 + f.length + 4 := by
    rw [String.length_append, String.length_append]; omega
  have hfI : ¬ (f = "" ∨ f = ".") := by rintro (h | h); exacts [hfne h, hfdot h]
  have hfdd2 : f ≠ ".." := fun hh => by rw [hh, containsSub_self] at hdd; cases hdd
  have hftI : ¬ (f ++ ".tmp" = "" ∨ f ++ ".tmp" = ".") := by
    rintro (h | h)
    · exact hfnet h
    · have h1 := congrArg String.length h
      rw [hlenft] at h1
      have : (("." : String)).length = 1 := rfl
      omega
  have hftdd : f ++ ".tmp" ≠ ".." := fun hh => by rw [hh, containsSub_self] at hddt; cases hddt
  have hnp : normComps ["audio", f] = ["audio", f] :=
    normComps_pair _ _ (by simp) (by simp) hfI hfdd2
  have hnt : normComps ["audio", f ++ ".tmp"] = ["audio", f ++ ".tmp"] :=
    normComps_pair _ _ (by simp) (by simp) hftI hftdd
  have hfrt : ∀ kv ∈ st.files,
      strStartsWith (lastComp kv.1) ("audio_" ++ f ++ ".tmp") = false := by
    intro kv hkv
    cases hb : strStartsWith (lastComp kv.1) ("audio_" ++ f ++ ".tmp") with
    | false => rfl
    | true =>
      have hc := strStartsWith_of_append _ _ _ hb
      rw [hfr kv hkv] at hc
      cases hc
  have hpathA : get_safe_file_path st ("audio_" ++ f) = .ok ["audio", f] :=
    get_safe_fresh_valid st _ "audio" f hmeta hfr hval
  have hpathT : get_safe_file_path st ("audio_" ++ f ++ ".tmp") = .ok ["audio", f ++ ".tmp"] :=
    get_safe_fresh_valid st _ "audio" (f ++ ".tmp") hmetatmp hfrt hvaltmp
  set st1 := writeFile st ["audio", f ++ ".tmp"] [] with hst1
  set st2p := (if computeOk then writeFile st1 ["audio", f] audioBytes else st1) with hst2p
  have hmetaEq : st2p.meta = st.meta := by
    rw [hst2p]; cases computeOk <;> rfl
  have hlast1 : ∀ kv ∈ st1.files,
      strStartsWith (lastComp kv.1) ("audio_" ++ f ++ ".tmp") = false := by
    intro kv hkv
    rcases mem_writeFile_files st _ _ kv hkv with hm | hm
    · exact hfrt kv hm
    · rw [hm]
      show strStartsWith (lastComp (normComps ["audio", f ++ ".tmp"])) _ = false
      rw [hnt]
      show strStartsWith (f ++ ".tmp") _ = false
      apply strStartsWith_false_of_longer
      omega
  have hfiles2 : ∀ kv ∈ st2p.files,
      strStartsWith (lastComp kv.1) ("audio_" ++ f ++ ".tmp") = false := by
    intro kv hkv
    rw [hst2p] at hkv
    have hkv' : kv ∈ st1.files ∨ kv = (normComps ["audio", f], audioBytes) := by
      cases computeOk with
      | true => exact mem_writeFile_files st1 _ _ kv hkv
      | false => exact Or.inl hkv
    rcases hkv' with hm | hm
    · exact hlast1 kv hm
    · rw [hm]
      show strStartsWith (lastComp (normComps ["audio", f])) _ = false
      rw [hnp]
      show strStartsWith f _ = false
      apply strStartsWith_false_of_longer
      omega
  have hmetatmp2 : lookupA ("audio_" ++ f ++ ".tmp") st2p.meta = none := by
    rw [hmetaEq]; exact hmetatmp
  have hmark : lookupFile st2p ["audio", f ++ ".tmp"] = some [] := by
    rw [hst2p]
    cases computeOk with
    | true =>
      show lookupFile (writeFile st1 ["audio", f] audioBytes) ["audio", f ++ ".tmp"] = some []
      rw [lookupFile_writeFile_other]
      · exact lookupFile_writeFile_self st _ _
      · rw [hnp, hnt]
        intro hh
        have h3 : [f ++ ".tmp"] = [f] := by injection hh
        have h5 : f ++ ".tmp" = f := by injection h3
        have h7 := congrArg String.length h5
        omega
    | false => exact lookupFile_writeFile_self st _ _
  have hexT : pathExists st2p ["audio", f ++ ".tmp"] = true := by
    simp [pathExists, fileExists, hmark]
  obtain ⟨hdel, hgone⟩ := delete_media_removes st2p ("audio_" ++ f ++ ".tmp") "audio"
    (f ++ ".tmp") hmetatmp2 hfiles2 hvaltmp hexT
  refine ⟨_, ?_, hgone⟩
  have hrun : kokoro_accepted_run st ("audio_" ++ f) computeOk audioBytes =
      (match delete_media st2p ("audio_" ++ f ++ ".tmp") with
       | .error e => .error e
       | .ok st2 => .ok ("audio_" ++ f ++ ".tmp", st2)) := by
    unfold kokoro_accepted_run create_tmp_file get_media_path kokoro_bg_task
    rw [hpathA, hpathT]
  rw [hrun, hdel]

/-- Witness for C5: a concrete accepted job on a fresh store, on the failing
compute path. -/
theorem accepted_job_marker_cleanup_witness :
    validate_media_id ("audio_" ++ "u1.wav") = some ("audio", "u1.wav") ∧
    validate_media_id ("audio_" ++ "u1.wav" ++ ".tmp") = some ("audio", "u1.wav" ++ ".tmp") ∧
    (∃ st2, kokoro_accepted_run (initStore ["app", "media"]) ("audio_" ++ "u1.wav") false [1] =
        .ok ("audio_" ++ "u1.wav" ++ ".tmp", st2) ∧
      fileExists st2 ["audio", "u1.wav" ++ ".tmp"] = false) :=
  ⟨by decide, by decide,
   accepted_job_marker_cleanup (initStore ["app", "media"]) "u1.wav" false [1]
     (by decide) (by decide) rfl rfl
     (by intro kv hkv; simp [initStore] at hkv) (by decide)⟩

/-! ### C7: store / fetch round-trip -/

theorem bucketFilename_no_custom (freshId ext : String) :
    bucketFilename freshId ext "" = uuidFilename freshId ext := by
  unfold bucketFilename
  rw [if_neg (by simp)]

/-- `upload_media` with no custom name, a known type and a traversal-free
extension succeeds, writing the fresh-UUID filename into the category
bucket. -/
theorem upload_media_ok_no_custom (st : Store) (freshId mt ext : String) (b : List Nat)
    (hmt : validMediaTypes.contains mt = true)
    (hext : containsSub ".." ext = false ∧ containsSub "/" ext = false ∧
      containsSub "\\" ext = false)
    (hdd : containsSub ".." (uuidFilename freshId ext) = false) :
    upload_media st freshId mt b ext "" =
      .ok (mt ++ "_" ++ uuidFilename freshId ext,
           writeFile st [mt, uuidFilename freshId ext] b) := by
  obtain ⟨he1, he2, he3⟩ := hext
  unfold upload_media
  rw [if_neg (fun hc => hc hmt)]
  rw [if_neg (by simp [he1, he2, he3])]
  rw [if_neg (by simp)]
  rw [bucketFilename_no_custom]
  rw [if_neg (by simp [abs_check_passes st.root mt (uuidFilename freshId ext) hmt hdd])]

/-- `get_media` on a resolved path holding `b` returns `b`. -/
theorem get_media_of_resolved (st : Store) (mid : String) (p : List String) (b : List Nat)
    (hsafe : get_safe_file_path st mid = .ok p)
    (hlook : lookupFile st p = some b) :
    get_media st mid = .ok b := by
  unfold get_media
  rw [hsafe]
  have hpe : pathExists st p = true := by simp [pathExists, fileExists, hlook]
  simp only [hpe, if_true, hlook]

/-- C7: round-trip — for every byte string, valid media type and valid
(traversal-free) extension, storing the bytes through `upload_media` and
immediately fetching the returned id through `get_media` (no intervening
operation, fresh UUID: no stored basename and no metadata entry collide with
the new id) returns exactly the original bytes. -/
theorem store_fetch_roundtrip (st : Store) (freshId mt ext : String) (b : List Nat)
    (hval : validate_media_id (mt ++ "_" ++ uuidFilename freshId ext) =
      some (mt, uuidFilename freshId ext))
    (hext : containsSub ".." ext = false ∧ containsSub "/" ext = false ∧
      containsSub "\\" ext = false)
    (hmeta : lookupA (mt ++ "_" ++ uuidFilename freshId ext) st.meta = none)
    (hfr : ∀ kv ∈ st.files, strStartsWith (lastComp kv.1)
      (mt ++ "_" ++ uuidFilename freshId ext) = false)
    (hfn : uuidFilename freshId ext ≠ ".") :
    upload_media st freshId mt b ext "" =
      .ok (mt ++ "_" ++ uuidFilename freshId ext,
        writeFile st [mt, uuidFilename freshId ext] b) ∧
    get_media (writeFile st [mt, uuidFilename freshId ext] b)
      (mt ++ "_" ++ uuidFilename freshId ext) = .ok b := by
  obtain ⟨hmt, hdd, _, _, hfne, _⟩ := validate_media_id_spec _ _ _ hval
  refine ⟨upload_media_ok_no_custom st freshId mt ext b hmt hext hdd, ?_⟩
  have hlen : (mt ++ "_" ++ uuidFilename freshId ext).length =
      mt.length + 1 + (uuidFilename freshId ext).length := by
    rw [String.length_append, String.length_append]
    have h1 : ("_" : String).length = 1 := rfl
    omega
  have hnf : normComps [mt, uuidFilename freshId ext] = [mt, uuidFilename freshId ext] := by
    obtain ⟨hI, h2⟩ := validMediaTypes_not_dots mt hmt
    refine normComps_pair _ _ hI h2 ?_ ?_
    · rintro (h | h); exacts [hfne h, hfn h]
    · exact fun hh => by rw [hh, containsSub_self] at hdd; cases hdd
  have hfr' : ∀ kv ∈ (writeFile st [mt, uuidFilename freshId ext] b).files,
      strStartsWith (lastComp kv.1) (mt ++ "_" ++ uuidFilename freshId ext) = false := by
    intro kv hkv
    rcases mem_writeFile_files st _ _ kv hkv with hm | hm
    · exact hfr kv hm
    · rw [hm]
      show strStartsWith (lastComp (normComps [mt, uuidFilename freshId ext])) _ = false
      rw [hnf]
      show strStartsWith (uuidFilename freshId ext) _ = false
      apply strStartsWith_false_of_longer
      omega
  have hsafe : get_safe_file_path (writeFile st [mt, uuidFilename freshId ext] b)
      (mt ++ "_" ++ uuidFilename freshId ext) = .ok [mt, uuidFilename freshId ext] := by
    apply get_safe_fresh_valid _ _ mt (uuidFilename freshId ext) _ hfr' hval
    show lookupA _ st.meta = none
    exact hmeta
  exact get_media_of_resolved _ _ _ b hsafe (lookupFile_writeFile_self st _ _)

/-- Witness for C7: a concrete fresh upload and fetch on a fresh store. -/
theorem store_fetch_roundtrip_witness :
    validate_media_id ("audio" ++ "_" ++ uuidFilename "u7" ".wav") =
      some ("audio", uuidFilename "u7" ".wav") ∧
    (upload_media (initStore ["app", "media"]) "u7" "audio" [5, 6] ".wav" "" =
      .ok ("audio" ++ "_" ++ uuidFilename "u7" ".wav",
        writeFile (initStore ["app", "media"]) ["audio", uuidFilename "u7" ".wav"] [5, 6]) ∧
     get_media (writeFile (initStore ["app", "media"]) ["audio", uuidFilename "u7" ".wav"] [5, 6])
      ("audio" ++ "_" ++ uuidFilename "u7" ".wav") = .ok [5, 6]) :=
  ⟨by decide,
   store_fetch_roundtrip (initStore ["app", "media"]) "u7" "audio" ".wav" [5, 6]
     (by decide) (by decide) rfl (by intro kv hkv; simp [initStore] at hkv) (by decide)⟩

/-! ### C4: admission denial is checked first and leaves the store unchanged -/

/-- C4: for every TTS request arriving while the tts pool or the heavy pool
has no spare capacity (`Semaphore.locked()`), both TTS endpoints return HTTP
429 with an error body and the store is returned unchanged: no final media
id is allocated and no temp marker file is created, because the peek happens
before any allocation. -/
theorem tts_admission_denial (sems : Sems) (st : Store)
    (h : sems.ttsAvail = 0 ∨ sems.heavyAvail = 0) :
    (∀ freshId voiceForm nameForm,
      generate_kokoro_tts sems st freshId voiceForm nameForm =
        .ok (.httpError 429
          "Server busy processing other TTS requests. Please try again later.", st)) ∧
    (∀ freshId uploadFreshId sampleFile sampleAudioId,
      generate_chatterbox_tts sems st freshId uploadFreshId sampleFile sampleAudioId =
        .ok (.httpError 429
          "Server busy processing other TTS requests. Please try again later.", st)) := by
  have hb : (sem_locked sems.ttsAvail || sem_locked sems.heavyAvail) = true := by
    rcases h with h | h <;> simp [sem_locked, h]
  constructor
  · intro freshId voiceForm nameForm
    unfold generate_kokoro_tts
    simp only [hb, if_true]
  · intro freshId uploadFreshId sampleFile sampleAudioId
    unfold generate_chatterbox_tts
    simp only [hb, if_true]

/-- Witness for C4: a saturated tts pool, concrete requests. -/
theorem tts_admission_denial_witness :
    ((⟨0, 1, 3⟩ : Sems).ttsAvail = 0 ∨ (⟨0, 1, 3⟩ : Sems).heavyAvail = 0) ∧
    generate_kokoro_tts ⟨0, 1, 3⟩ (initStore ["app", "media"]) "u9" none none =
      .ok (.httpError 429
        "Server busy processing other TTS requests. Please try again later.",
        initStore ["app", "media"]) ∧
    generate_chatterbox_tts ⟨0, 1, 3⟩ (initStore ["app", "media"]) "u9" "u10" none none =
      .ok (.httpError 429
        "Server busy processing other TTS requests. Please try again later.",
        initStore ["app", "media"]) :=
  ⟨Or.inl rfl,
   (tts_admission_denial ⟨0, 1, 3⟩ (initStore ["app", "media"]) (Or.inl rfl)).1 "u9" none none,
   (tts_admission_denial ⟨0, 1, 3⟩ (initStore ["app", "media"]) (Or.inl rfl)).2 "u9" "u10" none none⟩

/-! ### C6: filenames versus media ids -/

theorem uuidFilename_startsWith (freshId ext : String) :
    strStartsWith (uuidFilename freshId ext) freshId = true := by
  unfold uuidFilename
  split
  · exact strStartsWith_append ..
  · exact strStartsWith_refl _

theorem get_file_metadata_save (st : Store) (mid : String) (m : Metadata) :
    get_file_metadata (save_file_metadata st mid m) mid = m := by
  unfold get_file_metadata save_file_metadata
  show (lookupA mid (eraseKey mid st.meta ++ [(mid, m)])).getD {} = m
  rw [lookupA_append_right _ _ _ (lookupA_eraseKey_self _ _), lookupA_cons_self]
  rfl

/-- C6 counterexample: a default-bucket upload with a custom name.  The
returned media id is `image_cover.jpg`, the physical filename is `cover.jpg`
— the sanitised custom name, not a UUID — and the filename does not begin
with the media id; no metadata is persisted at all. -/
theorem custom_name_becomes_bucket_filename :
    upload_media (initStore ["app"]) "u3" "image" [9] ".jpg" "cover" =
      .ok ("image_cover.jpg", bucketUploadExample) ∧
    lookupFile bucketUploadExample ["image", "cover.jpg"] = some [9] ∧
    strStartsWith "cover.jpg" "image_cover.jpg" = false ∧
    bucketUploadExample.meta = [] := by decide

/-- C6 (amended): the filename/media-id invariant holds only for folder
uploads — there the physical filename begins with the returned media id (a
fresh UUID) and a custom name is persisted only as the metadata
`custom_name`.  For default-bucket uploads the media id is
`{category}_{filename}` where the filename is the sanitised custom name (or
fresh UUID stem) plus extension: the custom name does become the physical
filename and the filename is a suffix of the id rather than prefixed by
it. -/
theorem upload_filename_media_id_relation :
    (∀ st deadId freshId mt ext fp cn mid st' b,
      upload_media_to_folder st deadId freshId mt b ext fp cn = .ok (mid, st') →
      mid = freshId ∧
      strStartsWith (uuidFilename freshId ext) mid = true ∧
      (cn ≠ "" → get_file_metadata st' mid =
        { custom_name := cn, original_filename := cn, media_type := mt,
          folder_path := resolveFolderPath st fp, file_extension := ext }) ∧
      (cn = "" → st'.meta = st.meta)) ∧
    (∀ st freshId mt ext cn mid st' b,
      upload_media st freshId mt b ext cn = .ok (mid, st') →
      mid = mt ++ "_" ++ bucketFilename freshId ext cn ∧
      st' = writeFile st [mt, bucketFilename freshId ext cn] b) := by
  constructor
  · intro st deadId freshId mt ext fp cn mid st' b h
    simp only [upload_media_to_folder] at h
    split at h
    · simp at h
    split at h
    · simp at h
    split at h
    · simp at h
    split at h
    · split at h
      · simp at h
      · injection h with h
        injection h with h1 h2
        subst h1
        refine ⟨rfl, uuidFilename_startsWith .., ?_, ?_⟩
        · intro hcn
          rw [← h2, if_pos hcn]
          exact get_file_metadata_save ..
        · intro hcn
          rw [← h2, if_neg (by simp [hcn]), writeFile_meta]
          rfl
    · split at h
      · simp at h
      · injection h with h
        injection h with h1 h2
        subst h1
        refine ⟨rfl, uuidFilename_startsWith .., ?_, ?_⟩
        · intro hcn
          rw [← h2, if_pos hcn]
          exact get_file_metadata_save ..
        · intro hcn
          rw [← h2, if_neg (by simp [hcn]), writeFile_meta]
  · intro st freshId mt ext cn mid st' b h
    simp only [upload_media] at h
    split at h
    · simp at h
    split at h
    · simp at h
    split at h
    · simp at h
    split at h
    · simp at h
    injection h with h
    injection h with h1 h2
    exact ⟨h1.symm, h2.symm⟩

/-- Witness for C6 (amended): the two concrete uploads evaluated. -/
theorem upload_filename_media_id_relation_witness :
    (upload_media_to_folder (initStore ["app"]) "d1" "u2" "image" [7] ".jpg" "Clips" "cover" =
       .ok ("u2", folderUploadExample)) ∧
    ("u2" = "u2" ∧ strStartsWith (uuidFilename "u2" ".jpg") "u2" = true ∧
     ("cover" ≠ "" → get_file_metadata folderUploadExample "u2" =
       { custom_name := "cover", original_filename := "cover", media_type := "image",
         folder_path := resolveFolderPath (initStore ["app"]) "Clips",
         file_extension := ".jpg" }) ∧
     ("cover" = "" → folderUploadExample.meta = (initStore ["app"]).meta)) ∧
    (upload_media (initStore ["app"]) "u3" "image" [9] ".jpg" "cover" =
       .ok ("image_cover.jpg", bucketUploadExample)) ∧
    ("image_cover.jpg" = "image" ++ "_" ++ bucketFilename "u3" ".jpg" "cover" ∧
     bucketUploadExample = writeFile (initStore ["app"]) ["image", bucketFilename "u3" ".jpg" "cover"] [9]) :=
  ⟨by decide,
   upload_filename_media_id_relation.1 (initStore ["app"]) "d1" "u2" "image" ".jpg"
     "Clips" "cover" "u2" folderUploadExample [7] (by decide),
   by decide,
   upload_filename_media_id_relation.2 (initStore ["app"]) "u3" "image" ".jpg"
     "cover" "image_cover.jpg" bucketUploadExample [9] (by decide)⟩

/-! ### C8: protected folders -/

/-- C8 (amended): every folder-path argument whose segment-by-segment
resolution yields exactly `temp` or `Background Music` — whether addressed
by display name or by normalized id — is rejected by `delete_folder` with a
`ValueError` before anything is touched.  This does not extend to every
addressing form that reaches the protected directory: see the
counterexample with a trailing slash. -/
theorem delete_folder_protected_rejected (st : Store) (fp : String)
    (h : protectedFolders.contains (resolveFolderPath st fp) = true) :
    delete_folder st fp =
      .error (.valueError "Cannot delete protected folder or empty path") := by
  simp only [delete_folder]
  rw [if_pos (Or.inr h)]

/-- Witness for C8 (amended): the protected folder addressed by its
normalized id. -/
theorem delete_folder_protected_rejected_witness :
    protectedFolders.contains (resolveFolderPath (initStore ["app"]) "background_music") = true ∧
    delete_folder (initStore ["app"]) "background_music" =
      .error (.valueError "Cannot delete protected folder or empty path") :=
  ⟨by decide,
   delete_folder_protected_rejected (initStore ["app"]) "background_music" (by decide)⟩

/-- C8 counterexample: addressed with a trailing slash, the protected `temp`
folder IS deleted.  `"temp/"` contains `/`, resolves segment-by-segment to
the string `"temp/"` (final empty segment preserved), which fails the string
comparison against the protected list, while `os.path.exists` and
`shutil.rmtree` treat `folders/temp/` as the protected directory itself. -/
theorem protected_folder_deleted_via_trailing_slash :
    (initStore ["app"]).dirs.contains ["folders", "temp"] = true ∧
    delete_folder (initStore ["app"]) "temp/" = .ok (true, tempDeletedExample) ∧
    tempDeletedExample.dirs.contains ["folders", "temp"] = false := by decide

/-! ### C9: the tts pool admits at most two concurrent job bodies -/

/-- Filter-count accounting of updating one list position. -/
theorem length_filter_set (l : List Phase) (i : Nat) (x y : Phase) (p : Phase → Bool)
    (h : l.get? i = some y) :
    ((l.set i x).filter p).length + (if p y then 1 else 0) =
      (l.filter p).length + (if p x then 1 else 0) := by
  induction l generalizing i with
  | nil => simp at h
  | cons a t ih =>
    cases i with
    | zero =>
      rw [List.get?_cons_zero] at h
      injection h with h
      subst h
      rw [List.set_cons_zero]
      by_cases hx : p x <;> by_cases ha : p a <;>
        simp [List.filter_cons, hx, ha]
    | succ n =>
      rw [List.get?_cons_succ] at h
      have hrec := ih n h
      by_cases hx : p x <;> by_cases hy : p y <;> by_cases ha : p a <;>
        simp [List.set_cons_succ, List.filter_cons, hx, hy, ha] at hrec ⊢ <;> omega

theorem length_filter_le_of_imp {α : Type} (p q : α → Bool) (l : List α)
    (h : ∀ a, p a = true → q a = true) :
    (l.filter p).length ≤ (l.filter q).length := by
  induction l with
  | nil => simp
  | cons a t ih =>
    by_cases hp : p a
    · rw [List.filter_cons_of_pos hp, List.filter_cons_of_pos (h a hp)]
      simpa using ih
    · rw [List.filter_cons_of_neg hp]
      by_cases hq : q a
      · rw [List.filter_cons_of_pos hq]
        exact Nat.le_trans ih (Nat.le_succ _)
      · rw [List.filter_cons_of_neg hq]
        exact ih

/-- Every step keeps the pools' permit accounting. -/
theorem semStep_preserves_inv (s s' : SemState) (hstep : SemStep s s') (hinv : SemInv s) :
    SemInv s' := by
  simp only [SemInv, countTtsHolders, countInBody] at hinv ⊢
  obtain ⟨h1, h2⟩ := hinv
  cases hstep with
  | acquireTts i hi ht =>
    have hcT := length_filter_set s.tasks i Phase.hasTts Phase.idle holdsTts hi
    have hcB := length_filter_set s.tasks i Phase.hasTts Phase.idle (· == Phase.inBody) hi
    simp [holdsTts] at hcT hcB
    refine ⟨?_, ?_⟩ <;> dsimp only <;> omega
  | acquireHeavy i hi hh =>
    have hcT := length_filter_set s.tasks i Phase.inBody Phase.hasTts holdsTts hi
    have hcB := length_filter_set s.tasks i Phase.inBody Phase.hasTts (· == Phase.inBody) hi
    simp [holdsTts] at hcT hcB
    refine ⟨?_, ?_⟩ <;> dsimp only <;> omega
  | releaseHeavy i hi =>
    have hcT := length_filter_set s.tasks i Phase.releasedHeavy Phase.inBody holdsTts hi
    have hcB := length_filter_set s.tasks i Phase.releasedHeavy Phase.inBody (· == Phase.inBody) hi
    simp [holdsTts] at hcT hcB
    refine ⟨?_, ?_⟩ <;> dsimp only <;> omega
  | releaseTts i hi =>
    have hcT := length_filter_set s.tasks i Phase.done Phase.releasedHeavy holdsTts hi
    have hcB := length_filter_set s.tasks i Phase.done Phase.releasedHeavy (· == Phase.inBody) hi
    simp [holdsTts] at hcT hcB
    refine ⟨?_, ?_⟩ <;> dsimp only <;> omega

theorem semReach_inv {a s : SemState} (h : SemReach a s) (ha : SemInv a) : SemInv s := by
  induction h with
  | refl => exact ha
  | step hr hs ih => exact semStep_preserves_inv _ _ hs ih

/-- C9: with the default capacities (`tts` 2, `heavy` 3) and three deferred
TTS jobs started concurrently, every state reachable by interleaved permit
steps has at most 2 job bodies executing simultaneously; and whenever two
tasks hold `tts` permits the counter is 0, so a third task's `acquireTts`
step (which requires `0 < tts`) is disabled: the third blocks until one of
the first two releases its permit. -/
theorem tts_pool_capacity_two (s : SemState) (h : SemReach (semInit 3) s) :
    countInBody s ≤ 2 ∧ (countTtsHolders s = 2 → s.tts = 0) := by
  have hinv : SemInv s := semReach_inv h (by constructor <;> rfl)
  obtain ⟨h1, h2⟩ := hinv
  have hmono : countInBody s ≤ countTtsHolders s := by
    unfold countInBody countTtsHolders
    apply length_filter_le_of_imp
    intro a ha
    cases a <;> simp_all [holdsTts]
  exact ⟨by omega, fun hh => by omega⟩

/-- Witness for C9 at the initial state. -/
theorem tts_pool_capacity_two_witness :
    SemReach (semInit 3) (semInit 3) ∧
    (countInBody (semInit 3) ≤ 2 ∧ (countTtsHolders (semInit 3) = 2 → (semInit 3).tts = 0)) :=
  ⟨SemReach.refl _, tts_pool_capacity_two (semInit 3) (SemReach.refl _)⟩

end NoCodeTools
